import Mathlib

/-
  Verification development for the k-notes offline-first mutation
  synchronization engine.

  Shallow embedding of:
  - the Durable Queue Store (k-notes-frontend/src/lib/db.ts):
    addToMutationQueue, getMutationQueue, clearMutationFromQueue over an
    IndexedDB object store with an auto-incrementing primary key and a
    secondary index on the enqueue timestamp;
  - the Sync Coordinator (sync module): processQueue;
  - the Optimistic Cache integration (use-notes hooks): useCreateNote,
    useUpdateNote, useDeleteNote mutation functions together with their
    onMutate snapshot, optimistic write, onError rollback and onSettled
    invalidation handlers;
  - the error classification performed by the hooks over the errors thrown
    by the api client (ApiError for non-ok HTTP responses, TypeError for
    network failures and the synthetic timeout, AbortError for aborts).

  Ambient browser state is made explicit: navigator.onLine is sampled as a
  boolean input at each point the source reads it, Date.now() is a natural
  number input, crypto.randomUUID() and the ISO timestamp are string inputs.
-/

namespace KNotes

/-- HTTP method of a queued mutation, db.ts MutationRequest.type. -/
inductive MType
  | post
  | patch
  | delete
deriving DecidableEq, Repr

/-- Tag entity as seen by the client, use-notes.ts Tag. -/
structure Tag where
  id : String
  name : String
  created_at : Option String
deriving DecidableEq, Repr

/-- A JavaScript value stored in a note tags array: server notes hold tag
objects, while the optimistic merge can overwrite the field with the plain
string list supplied in UpdateNoteInput.tags. -/
inductive TagVal
  | obj (t : Tag)
  | name (s : String)
deriving DecidableEq, Repr

/-- Note entity as seen by the client, use-notes.ts Note. -/
structure Note where
  id : String
  title : String
  content : String
  is_pinned : Bool
  is_archived : Bool
  color : String
  tags : List TagVal
  created_at : String
  updated_at : String
deriving DecidableEq, Repr

/-- Input of useCreateNote, use-notes.ts CreateNoteInput; optional fields
are absent when the caller does not supply them. -/
structure CreateNoteInput where
  title : String
  content : String
  tags : Option (List String)
  color : Option String
  is_pinned : Option Bool
deriving DecidableEq, Repr

/-- The rest fields of UpdateNoteInput after the id is destructured away;
this is the object sent as the PATCH body. -/
structure UpdateNoteData where
  title : Option String
  content : Option String
  tags : Option (List String)
  color : Option String
  is_pinned : Option Bool
  is_archived : Option Bool
deriving DecidableEq, Repr

/-- Input of useUpdateNote, use-notes.ts UpdateNoteInput, split as the
source destructures it into the id and the remaining data. -/
structure UpdateNoteInput where
  id : String
  data : UpdateNoteData
deriving DecidableEq, Repr

/-- Structured body of a queued mutation: the create input for POST /notes,
the update data for PATCH /notes/:id; DELETE records carry no body. -/
inductive Body
  | create (d : CreateNoteInput)
  | update (d : UpdateNoteData)
deriving DecidableEq, Repr

/-- db.ts MutationRequest: what callers hand to addToMutationQueue. -/
structure MutationRequest where
  type : MType
  endpoint : String
  body : Option Body
deriving DecidableEq, Repr

/-- db.ts mutation_queue record value: the request plus the key assigned by
the auto-increment generator and the Date.now() timestamp. -/
structure MutationRecord where
  id : Nat
  type : MType
  endpoint : String
  body : Option Body
  timestamp : Nat
deriving DecidableEq, Repr

/-- State of the mutation_queue object store: the stored records in primary
key order, and the value the auto-increment key generator will hand out
next. IndexedDB key generators start at 1 and never reuse keys. -/
structure QueueState where
  records : List MutationRecord
  nextId : Nat
deriving DecidableEq, Repr

/-- Freshly created store, as built by the getDb upgrade callback. -/
def emptyQueue : QueueState := ⟨[], 1⟩

/-- db.ts addToMutationQueue: db.add of the request spread together with a
timestamp: Date.now(). The key generator assigns the next id and the record
is appended; the function body has no return statement, so the call
resolves with undefined, modelled as none. -/
def addToMutationQueue (m : MutationRequest) (now : Nat) (s : QueueState) :
    QueueState × Option MutationRecord :=
  (⟨s.records ++ [⟨s.nextId, m.type, m.endpoint, m.body, now⟩], s.nextId + 1⟩,
   none)

/-- db.ts clearMutationFromQueue: db.delete by primary key; deleting an
absent key is a no-op. -/
def clearMutationFromQueue (i : Nat) (s : QueueState) : QueueState :=
  ⟨s.records.filter (fun r => r.id != i), s.nextId⟩

/-- Order in which the by-timestamp secondary index enumerates records:
ascending index key (timestamp), ties broken by ascending primary key (id),
per the IndexedDB index ordering rules. -/
def tsKeyLe (a b : MutationRecord) : Prop :=
  a.timestamp < b.timestamp ∨ (a.timestamp = b.timestamp ∧ a.id ≤ b.id)

instance (a b : MutationRecord) : Decidable (tsKeyLe a b) := by
  unfold tsKeyLe; infer_instance

/-- Insertion of one record into a list kept in by-timestamp index order. -/
def insertRec (a : MutationRecord) : List MutationRecord → List MutationRecord
  | [] => [a]
  | b :: l => if tsKeyLe a b then a :: b :: l else b :: insertRec a l

/-- Enumeration of a record list in by-timestamp index order. -/
def sortByTs : List MutationRecord → List MutationRecord
  | [] => []
  | a :: l => insertRec a (sortByTs l)

/-- db.ts getMutationQueue: db.getAllFromIndex over the by-timestamp index,
returning every record in index order. -/
def getMutationQueue (s : QueueState) : List MutationRecord :=
  sortByTs s.records

/-- Store invariant maintained by the operations: primary keys strictly
increase along the stored list and stay below the key generator. -/
def WFq (s : QueueState) : Prop :=
  (s.records.map MutationRecord.id).Pairwise (· < ·) ∧
  ∀ r ∈ s.records, r.id < s.nextId

instance (s : QueueState) : Decidable (WFq s) := by
  unfold WFq; infer_instance

/-- Error values thrown by the api client and classified by the hooks:
ApiError carries the HTTP status of a non-ok response; TypeError is thrown
by fetch on network failure and by the 3 second synthetic timeout;
AbortError is the name of an aborted request error. -/
inductive JsError
  | apiError (status : Nat) (message : String)
  | typeError (message : String)
  | abortError (message : String)
deriving DecidableEq, Repr

/-- One request sent through the api client by the drain loop: POST and
PATCH send the stored body, the DELETE branch calls api.delete with the
endpoint only. -/
structure ApiCall where
  method : MType
  endpoint : String
  body : Option Body
deriving DecidableEq, Repr

/-- The request the processQueue dispatch chain issues for one record. -/
def dispatchOf (m : MutationRecord) : ApiCall :=
  match m.type with
  | .post => ⟨.post, m.endpoint, m.body⟩
  | .patch => ⟨.patch, m.endpoint, m.body⟩
  | .delete => ⟨.delete, m.endpoint, none⟩

/-- The for loop of processQueue over the list read from the index: each
record is dispatched once; on success the record is removed from the store;
on a thrown error the catch logs and the loop continues. Returns the final
store state and the records attempted in order. -/
def drainLoop (outcome : MutationRecord → Except JsError Unit) :
    List MutationRecord → QueueState → QueueState × List MutationRecord
  | [], s => (s, [])
  | m :: rest, s =>
    let s1 := match outcome m with
      | .ok _ => clearMutationFromQueue m.id s
      | .error _ => s
    let p := drainLoop outcome rest s1
    (p.1, m :: p.2)

/-- Observable result of one processQueue call: final store state, records
attempted, api calls issued, query key prefixes invalidated, and how many
times the queue store was read. -/
structure DrainResult where
  state : QueueState
  attempted : List MutationRecord
  calls : List ApiCall
  invalidated : List (List String)
  storeReads : Nat
deriving Repr

/-- sync processQueue: return at once when navigator.onLine is false; read
the queue through getMutationQueue; return when it is empty; otherwise run
the drain loop and afterwards invalidate the notes and tags query keys. -/
def processQueue (online : Bool) (outcome : MutationRecord → Except JsError Unit)
    (s : QueueState) : DrainResult :=
  if !online then ⟨s, [], [], [], 0⟩
  else
    let queue := getMutationQueue s
    if queue.isEmpty then ⟨s, [], [], [], 1⟩
    else
      let p := drainLoop outcome queue s
      ⟨p.1, p.2, p.2.map dispatchOf, [["notes"], ["tags"]], 1⟩

/-- Folding a list of requests with their Date.now() values through
addToMutationQueue, oldest first. -/
def enqueueAll (ms : List (MutationRequest × Nat)) (s : QueueState) : QueueState :=
  match ms with
  | [] => s
  | (m, t) :: rest => enqueueAll rest (addToMutationQueue m t s).1

/-- The request and timestamp a stored record was built from. -/
def reqOf (r : MutationRecord) : MutationRequest × Nat :=
  (⟨r.type, r.endpoint, r.body⟩, r.timestamp)

/-- Ambient environment of one direct-call attempt in a hook mutation
function: navigator.onLine sampled before the try block, navigator.onLine
sampled inside the catch block, and the outcome of the api call. -/
structure MutEnv where
  onlineAtStart : Bool
  onlineAtCatch : Bool
  direct : Except JsError Unit
deriving Repr

/-- The fallback test in the catch blocks of useCreateNote, useUpdateNote
and useDeleteNote: not navigator.onLine, or the error name is AbortError,
or the error is a TypeError instance. ApiError extends Error, not
TypeError, so application-level rejections fail this test. -/
def isNetworkClass (onlineAtCatch : Bool) (e : JsError) : Bool :=
  !onlineAtCatch ||
    (match e with
     | .abortError _ => true
     | .typeError _ => true
     | .apiError _ _ => false)

/-- The object literal returned by the queueOffline closure of
useCreateNote: the random uuid, the caller data spread in, then the
timestamps, the pinned default, is_archived false, an empty tags array and
the color field set to the default, the last four overwriting anything the
spread supplied. -/
def createPlaceholder (d : CreateNoteInput) (uuid nowIso : String) : Note where
  id := uuid
  title := d.title
  content := d.content
  is_pinned := d.is_pinned.getD false
  is_archived := false
  color := "default"
  tags := []
  created_at := nowIso
  updated_at := nowIso

/-- Value a useCreateNote mutation resolves with: the server response on a
successful direct call, or the synthesized placeholder on the offline
path. -/
inductive CreateRet
  | server
  | offlinePlaceholder (n : Note)
deriving DecidableEq, Repr

/-- Result of running the useCreateNote mutation function: the queue store
afterwards, whether the direct call was attempted, whether a record was
enqueued, and the resolved value or thrown error. -/
structure CreateOut where
  queue : QueueState
  attempted : Bool
  queued : Bool
  result : Except JsError CreateRet
deriving Repr

/-- use-notes.ts useCreateNote mutationFn: when navigator.onLine is false,
queue a POST /notes record with the input as body and resolve with the
placeholder; otherwise attempt api.post and, on a thrown error, fall back
to the queue when the catch test classifies it as network-class, else
rethrow. -/
def createNoteMutationFn (env : MutEnv) (d : CreateNoteInput)
    (uuid nowIso : String) (now : Nat) (qs : QueueState) : CreateOut :=
  let qOff := (addToMutationQueue ⟨.post, "/notes", some (.create d)⟩ now qs).1
  let ret := CreateRet.offlinePlaceholder (createPlaceholder d uuid nowIso)
  if !env.onlineAtStart then
    ⟨qOff, false, true, .ok ret⟩
  else
    match env.direct with
    | .ok _ => ⟨qs, true, false, .ok .server⟩
    | .error e =>
      if isNetworkClass env.onlineAtCatch e then ⟨qOff, true, true, .ok ret⟩
      else ⟨qs, true, false, .error e⟩

/-- Result of running the useUpdateNote or useDeleteNote mutation function;
the resolved value itself is not inspected by any consumer we model. -/
structure WriteOut where
  queue : QueueState
  attempted : Bool
  queued : Bool
  result : Except JsError Unit
deriving Repr

/-- use-notes.ts useUpdateNote mutationFn: when navigator.onLine is false,
queue a PATCH record for the note endpoint carrying the non-id fields;
otherwise attempt api.patch and, on a thrown error, fall back to the queue
when the catch test classifies it as network-class, else rethrow. -/
def updateNoteMutationFn (env : MutEnv) (u : UpdateNoteInput) (now : Nat)
    (qs : QueueState) : WriteOut :=
  let qOff :=
    (addToMutationQueue ⟨.patch, "/notes/" ++ u.id, some (.update u.data)⟩ now qs).1
  if !env.onlineAtStart then ⟨qOff, false, true, .ok ()⟩
  else
    match env.direct with
    | .ok _ => ⟨qs, true, false, .ok ()⟩
    | .error e =>
      if isNetworkClass env.onlineAtCatch e then ⟨qOff, true, true, .ok ()⟩
      else ⟨qs, true, false, .error e⟩

/-- use-notes.ts useDeleteNote mutationFn: when navigator.onLine is false,
queue a DELETE record for the note endpoint with no body; otherwise attempt
api.delete and, on a thrown error, fall back to the queue when the catch
test classifies it as network-class, else rethrow. -/
def deleteNoteMutationFn (env : MutEnv) (i : String) (now : Nat)
    (qs : QueueState) : WriteOut :=
  let qOff := (addToMutationQueue ⟨.delete, "/notes/" ++ i, none⟩ now qs).1
  if !env.onlineAtStart then ⟨qOff, false, true, .ok ()⟩
  else
    match env.direct with
    | .ok _ => ⟨qs, true, false, .ok ()⟩
    | .error e =>
      if isNetworkClass env.onlineAtCatch e then ⟨qOff, true, true, .ok ()⟩
      else ⟨qs, true, false, .error e⟩

/-- Query key of a react-query cache entry; parameter objects are
canonicalized to strings. -/
abbrev QueryKey := List String

/-- Data held by one cache entry: undefined before the first fetch, or a
materialized note list. -/
abbrev CacheData := Option (List Note)

/-- The react-query QueryCache restricted to what the hooks touch: entries
keyed by query key; keys are unique in a real QueryCache. -/
abbrev Cache := List (QueryKey × CacheData)

/-- React-query key matching: a filter key matches every entry whose key
starts with it, element by element. -/
def keyMatches : QueryKey → QueryKey → Bool
  | [], _ => true
  | _ :: _, [] => false
  | a :: as, b :: bs => a == b && keyMatches as bs

/-- queryClient.getQueriesData: the entries whose key the filter matches,
as key and data pairs. -/
def getQueriesData (fk : QueryKey) (c : Cache) : Cache :=
  c.filter (fun e => keyMatches fk e.1)

/-- queryClient.setQueriesData: apply the updater to the data of every
matching entry. -/
def setQueriesData (fk : QueryKey) (f : CacheData → CacheData) (c : Cache) :
    Cache :=
  c.map (fun e => if keyMatches fk e.1 then (e.1, f e.2) else e)

/-- queryClient.setQueryData: overwrite the data stored under one exact
key. -/
def setQueryData (k : QueryKey) (d : CacheData) (c : Cache) : Cache :=
  c.map (fun e => if e.1 == k then (e.1, d) else e)

/-- The onError rollback of useUpdateNote and useDeleteNote: for each
snapshotted key and data pair, setQueryData it back. -/
def restoreCache (prev : Cache) (c : Cache) : Cache :=
  prev.foldl (fun acc e => setQueryData e.1 e.2 acc) c

/-- The spread of the full update input over a cached note performed by the
onMutate updater of useUpdateNote: every present field overwrites, the id
is rewritten with the equal id of the input, and a present tags field
overwrites the tag objects with the plain string list. -/
def mergeNote (n : Note) (u : UpdateNoteInput) : Note where
  id := u.id
  title := u.data.title.getD n.title
  content := u.data.content.getD n.content
  is_pinned := u.data.is_pinned.getD n.is_pinned
  is_archived := u.data.is_archived.getD n.is_archived
  color := u.data.color.getD n.color
  tags :=
    match u.data.tags with
    | some ts => ts.map TagVal.name
    | none => n.tags
  created_at := n.created_at
  updated_at := n.updated_at

/-- The onMutate cache updater of useUpdateNote: leave undefined data
alone, otherwise merge the input over each note with the matching id. -/
def optimisticUpdate (u : UpdateNoteInput) : CacheData → CacheData
  | none => none
  | some old =>
    some (old.map (fun n => if n.id == u.id then mergeNote n u else n))

/-- The onMutate cache updater of useDeleteNote: leave undefined data
alone, otherwise filter out the note with the deleted id. -/
def optimisticDelete (i : String) : CacheData → CacheData
  | none => none
  | some old => some (old.filter (fun n => n.id != i))

/-- Observable result of one full hook mutation run: cache and queue store
afterwards, the resolved or thrown outcome, and the query key prefixes
invalidated by onSettled. -/
structure HookRun where
  cache : Cache
  queue : QueueState
  result : Except JsError Unit
  invalidated : List QueryKey
deriving Repr

/-- Query key prefix of every notes collection entry. -/
def notesKey : QueryKey := ["notes"]

/-- Query key of the tags collection entry. -/
def tagsKey : QueryKey := ["tags"]

/-- One useUpdateNote mutation run through the react-query lifecycle:
onMutate snapshots every notes entry and applies the optimistic update,
mutationFn runs, onError restores the snapshot exactly when the mutation
rejected, onSettled invalidates the notes and tags keys. -/
def runUpdateNote (env : MutEnv) (u : UpdateNoteInput) (now : Nat)
    (qs : QueueState) (c : Cache) : HookRun :=
  let previous := getQueriesData notesKey c
  let c1 := setQueriesData notesKey (optimisticUpdate u) c
  let out := updateNoteMutationFn env u now qs
  let c2 := match out.result with
    | .error _ => restoreCache previous c1
    | .ok _ => c1
  ⟨c2, out.queue, out.result, [notesKey, tagsKey]⟩

/-- One useDeleteNote mutation run through the react-query lifecycle:
onMutate snapshots every notes entry and applies the optimistic removal,
mutationFn runs, onError restores the snapshot exactly when the mutation
rejected, onSettled invalidates the notes and tags keys. -/
def runDeleteNote (env : MutEnv) (i : String) (now : Nat)
    (qs : QueueState) (c : Cache) : HookRun :=
  let previous := getQueriesData notesKey c
  let c1 := setQueriesData notesKey (optimisticDelete i) c
  let out := deleteNoteMutationFn env i now qs
  let c2 := match out.result with
    | .error _ => restoreCache previous c1
    | .ok _ => c1
  ⟨c2, out.queue, out.result, [notesKey, tagsKey]⟩

/-- Observable result of one full useCreateNote mutation run: cache and
queue store afterwards, the resolved or thrown outcome, and the query key
prefixes invalidated by onSuccess. -/
structure CreateHookRun where
  cache : Cache
  queue : QueueState
  result : Except JsError CreateRet
  invalidated : List QueryKey
deriving Repr

/-- One useCreateNote mutation run through the react-query lifecycle: the
hook declares no onMutate and no onError, so no handler ever writes to the
query cache, which passes through unchanged; mutationFn runs and, when it
resolves (the offline placeholder path included), onSuccess invalidates the
notes and tags keys; a thrown error invalidates nothing. The placeholder is
only the value the mutation resolves with for its caller. -/
def runCreateNote (env : MutEnv) (d : CreateNoteInput)
    (uuid nowIso : String) (now : Nat) (qs : QueueState) (c : Cache) :
    CreateHookRun :=
  let out := createNoteMutationFn env d uuid nowIso now qs
  let inv := match out.result with
    | .ok _ => [notesKey, tagsKey]
    | .error _ => []
  ⟨c, out.queue, out.result, inv⟩

/-- Whether the Remote API Client resolves the dispatch of a record. -/
def okB (outcome : MutationRecord → Except JsError Unit) (m : MutationRecord) :
    Bool :=
  match outcome m with
  | .ok _ => true
  | .error _ => false

/-- Comparison holding between records stored by enqueue calls whose clock
values never decrease: earlier records carry an earlier or equal timestamp
and a strictly smaller id. -/
def chronoLe (a b : MutationRecord) : Prop :=
  a.timestamp ≤ b.timestamp ∧ a.id < b.id

instance (a b : MutationRecord) : Decidable (chronoLe a b) := by
  unfold chronoLe; infer_instance

/-- Whether the direct call of a hook failed and the failure passed the
network-class fallback test of the catch block. -/
def directFailsNetworkClass (env : MutEnv) : Bool :=
  match env.direct with
  | .ok _ => false
  | .error e => isNetworkClass env.onlineAtCatch e

/-- A concrete create request as the hooks would enqueue it. -/
def reqPost : MutationRequest := ⟨.post, "/notes", none⟩

/-- A concrete update request for one note endpoint. -/
def reqPatch : MutationRequest := ⟨.patch, "/notes/n1", none⟩

/-- Store obtained by two enqueue calls whose second Date.now() sample is
smaller than the first: the ambient clock moved backwards between them. -/
def sClockBack : QueueState :=
  (addToMutationQueue reqPatch 50 (addToMutationQueue reqPost 100 emptyQueue).1).1

/-- Two enqueue inputs whose Date.now() samples decrease. -/
def msClockBack : List (MutationRequest × Nat) :=
  [(⟨.post, "/notes", none⟩, 100), (⟨.delete, "/notes/n9", none⟩, 50)]

/-- Store obtained by enqueueing msClockBack into a fresh store. -/
def sDrainBack : QueueState := enqueueAll msClockBack emptyQueue

/-- Two enqueue inputs with ordinary non-decreasing Date.now() samples. -/
def msDemo : List (MutationRequest × Nat) :=
  [(⟨.post, "/notes", some (.create ⟨"Groceries", "milk", none, none, none⟩)⟩, 10),
   (⟨.delete, "/notes/n2", none⟩, 20)]

/-- Store holding the two msDemo records. -/
def sDemo : QueueState := enqueueAll msDemo emptyQueue

/-- Dispatch outcome where the server accepts every replayed request. -/
def allOk : MutationRecord → Except JsError Unit := fun _ => .ok ()

/-- Dispatch outcome where the record with id 1 is rejected with an
application-level 400 and every other record succeeds. -/
def failFirst : MutationRecord → Except JsError Unit :=
  fun m => if m.id = 1 then .error (.apiError 400 "Invalid payload") else .ok ()

/-- A concrete server note sitting in the cache. -/
def noteA : Note := ⟨"n1", "A", "alpha", false, false, "default", [], "t0", "t0"⟩

/-- A concrete cache with one notes entry and one tags-keyed entry. -/
def cacheDemo : Cache := [(["notes", "p1"], some [noteA]), (["tags"], some [])]

/-- An update input retitling note n1 to B. -/
def updTitleB : UpdateNoteInput := ⟨"n1", ⟨some "B", none, none, none, none, none⟩⟩

/-- Environment of a direct call that fails with a fetch network error while
the monitor keeps reporting reachable. -/
def envNetFail : MutEnv := ⟨true, true, .error (.typeError "Failed to fetch")⟩

/-- Environment of a direct call rejected by the application with a 422
while the monitor keeps reporting reachable. -/
def envAppFail : MutEnv := ⟨true, true, .error (.apiError 422 "Validation failed")⟩

/-- Environment of a direct call rejected with a 404 while the monitor
keeps reporting reachable. -/
def envApp404 : MutEnv := ⟨true, true, .error (.apiError 404 "Not found")⟩

/-- Environment where the monitor reports unreachable from the start. -/
def envOffline : MutEnv := ⟨false, false, .ok ()⟩

/-- Environment of a direct call rejected by the application with a 400,
the monitor having turned unreachable by the time the catch block runs. -/
def envAppFailOffline : MutEnv := ⟨true, false, .error (.apiError 400 "Invalid payload")⟩

/-- A concrete create input without optional fields. -/
def dGroceries : CreateNoteInput := ⟨"Groceries", "milk", none, none, none⟩

/-- A concrete create input that supplies a color. -/
def dColored : CreateNoteInput := ⟨"Groceries", "milk", none, some "RED", none⟩

section SortLemmas

theorem tsKeyLe_total {a b : MutationRecord} (h : ¬ tsKeyLe a b) : tsKeyLe b a := by
  unfold tsKeyLe at *
  omega

theorem tsKeyLe_trans {a b c : MutationRecord} (h1 : tsKeyLe a b)
    (h2 : tsKeyLe b c) : tsKeyLe a c := by
  unfold tsKeyLe at *
  omega

theorem chronoLe_tsKeyLe {a b : MutationRecord} (h : chronoLe a b) : tsKeyLe a b := by
  unfold chronoLe at h
  unfold tsKeyLe
  omega

theorem insertRec_perm (a : MutationRecord) (l : List MutationRecord) :
    List.Perm (insertRec a l) (a :: l) := by
  induction l with
  | nil => exact List.Perm.refl _
  | cons b t ih =>
    unfold insertRec
    by_cases h : tsKeyLe a b
    · rw [if_pos h]
    · rw [if_neg h]
      exact (ih.cons b).trans (List.Perm.swap a b t)

theorem sortByTs_perm (l : List MutationRecord) : List.Perm (sortByTs l) l := by
  induction l with
  | nil => exact List.Perm.refl _
  | cons a t ih =>
    unfold sortByTs
    exact (insertRec_perm a (sortByTs t)).trans (ih.cons a)

theorem mem_sortByTs {m : MutationRecord} {l : List MutationRecord} :
    m ∈ sortByTs l ↔ m ∈ l :=
  (sortByTs_perm l).mem_iff

theorem sortByTs_eq_nil_iff {l : List MutationRecord} :
    sortByTs l = [] ↔ l = [] := by
  constructor
  · intro h
    have := sortByTs_perm l
    rw [h] at this
    exact this.symm.eq_nil
  · intro h
    rw [h]
    rfl

theorem mem_insertRec {x a : MutationRecord} {l : List MutationRecord} :
    x ∈ insertRec a l ↔ x = a ∨ x ∈ l := by
  rw [(insertRec_perm a l).mem_iff, List.mem_cons]

theorem insertRec_pairwise {l : List MutationRecord}
    (hl : l.Pairwise tsKeyLe) (a : MutationRecord) :
    (insertRec a l).Pairwise tsKeyLe := by
  induction l with
  | nil => simp [insertRec]
  | cons b t ih =>
    rw [List.pairwise_cons] at hl
    unfold insertRec
    by_cases h : tsKeyLe a b
    · rw [if_pos h, List.pairwise_cons]
      refine ⟨?_, List.pairwise_cons.mpr hl⟩
      intro x hx
      rcases List.mem_cons.mp hx with hx | hx
      · rw [hx]; exact h
      · exact tsKeyLe_trans h (hl.1 x hx)
    · rw [if_neg h, List.pairwise_cons]
      refine ⟨?_, ih hl.2⟩
      intro x hx
      rcases mem_insertRec.mp hx with hx | hx
      · rw [hx]; exact tsKeyLe_total h
      · exact hl.1 x hx

theorem sortByTs_pairwise (l : List MutationRecord) :
    (sortByTs l).Pairwise tsKeyLe := by
  induction l with
  | nil => simp [sortByTs]
  | cons a t ih => exact insertRec_pairwise ih a

theorem sortByTs_of_pairwise {l : List MutationRecord}
    (h : l.Pairwise tsKeyLe) : sortByTs l = l := by
  induction l with
  | nil => rfl
  | cons a t ih =>
    rw [List.pairwise_cons] at h
    unfold sortByTs
    rw [ih h.2]
    cases t with
    | nil => rfl
    | cons b t2 =>
      unfold insertRec
      rw [if_pos (h.1 b (List.mem_cons_self b t2))]

end SortLemmas

section StoreLemmas

theorem WFq_empty : WFq emptyQueue := by
  constructor
  · simp [emptyQueue]
  · intro r hr
    simp [emptyQueue] at hr

theorem WFq_add {s : QueueState} (h : WFq s) (m : MutationRequest) (t : Nat) :
    WFq (addToMutationQueue m t s).1 := by
  obtain ⟨h1, h2⟩ := h
  constructor
  · simp only [addToMutationQueue, List.map_append, List.map_cons, List.map_nil]
    rw [List.pairwise_append]
    refine ⟨h1, List.pairwise_singleton _ _, ?_⟩
    intro x hx y hy
    rcases List.mem_map.mp hx with ⟨r, hr, hrx⟩
    rcases List.mem_singleton.mp hy
    rw [← hrx]
    exact h2 r hr
  · intro r hr
    simp only [addToMutationQueue, List.mem_append, List.mem_singleton] at hr
    rcases hr with hr | hr
    · exact Nat.lt_succ_of_lt (h2 r hr)
    · rw [hr]
      exact Nat.lt_succ_self _


theorem WFq_clear {s : QueueState} (h : WFq s) (i : Nat) :
    WFq (clearMutationFromQueue i s) := by
  obtain ⟨h1, h2⟩ := h
  constructor
  · exact h1.sublist ((List.filter_sublist _).map MutationRecord.id)
  · intro r hr
    exact h2 r (List.mem_of_mem_filter hr)

theorem WFq_enqueueAll (ms : List (MutationRequest × Nat)) :
    ∀ s : QueueState, WFq s → WFq (enqueueAll ms s) := by
  induction ms with
  | nil => intro s h; exact h
  | cons p rest ih =>
    intro s h
    obtain ⟨m, t⟩ := p
    exact ih _ (WFq_add h m t)

theorem id_inj_of_pairwise {l : List MutationRecord}
    (h : (l.map MutationRecord.id).Pairwise (· < ·)) :
    ∀ a ∈ l, ∀ b ∈ l, a.id = b.id → a = b := by
  rw [List.pairwise_map] at h
  induction l with
  | nil => intro a ha; simp at ha
  | cons x t ih =>
    rw [List.pairwise_cons] at h
    intro a ha b hb hab
    rcases List.mem_cons.mp ha with ha | ha <;>
      rcases List.mem_cons.mp hb with hb | hb
    · rw [ha, hb]
    · exfalso
      have := h.1 b hb
      rw [ha] at hab
      omega
    · exfalso
      have := h.1 a ha
      rw [hb] at hab
      omega
    · exact ih h.2 a ha b hb hab

theorem enqueueAll_records_map (ms : List (MutationRequest × Nat)) :
    ∀ s : QueueState,
      (enqueueAll ms s).records.map reqOf = s.records.map reqOf ++ ms := by
  induction ms with
  | nil => intro s; simp [enqueueAll]
  | cons p rest ih =>
    intro s
    obtain ⟨m, t⟩ := p
    show (enqueueAll rest (addToMutationQueue m t s).1).records.map reqOf = _
    rw [ih]
    simp [addToMutationQueue, reqOf]

theorem enqueueAll_chrono (ms : List (MutationRequest × Nat)) :
    ∀ s : QueueState, WFq s → s.records.Pairwise chronoLe →
      (∀ r ∈ s.records, ∀ p ∈ ms, r.timestamp ≤ p.2) →
      (ms.map Prod.snd).Pairwise (· ≤ ·) →
      (enqueueAll ms s).records.Pairwise chronoLe := by
  induction ms with
  | nil => intro s _ hch _ _; exact hch
  | cons p rest ih =>
    intro s hwf hch hts hms
    obtain ⟨m, t⟩ := p
    rw [List.map_cons, List.pairwise_cons] at hms
    show ((enqueueAll rest (addToMutationQueue m t s).1).records).Pairwise chronoLe
    apply ih _ (WFq_add hwf m t)
    · simp only [addToMutationQueue]
      rw [List.pairwise_append]
      refine ⟨hch, List.pairwise_singleton _ _, ?_⟩
      intro a ha b hb
      rcases List.mem_singleton.mp hb
      constructor
      · exact hts a ha (m, t) (List.mem_cons_self _ _)
      · exact hwf.2 a ha
    · intro r hr q hq
      simp only [addToMutationQueue, List.mem_append, List.mem_singleton] at hr
      rcases hr with hr | hr
      · exact hts r hr q (List.mem_cons_of_mem _ hq)
      · rw [hr]
        exact hms.1 q.2 (List.mem_map_of_mem Prod.snd hq)
    · exact hms.2

end StoreLemmas

section DrainLemmas

theorem drainLoop_snd (outcome : MutationRecord → Except JsError Unit)
    (q : List MutationRecord) : ∀ s : QueueState,
    (drainLoop outcome q s).2 = q := by
  induction q with
  | nil => intro s; rfl
  | cons m rest ih =>
    intro s
    unfold drainLoop
    simp [ih]

theorem drainLoop_nextId (outcome : MutationRecord → Except JsError Unit)
    (q : List MutationRecord) : ∀ s : QueueState,
    (drainLoop outcome q s).1.nextId = s.nextId := by
  induction q with
  | nil => intro s; rfl
  | cons m rest ih =>
    intro s
    unfold drainLoop
    cases h : outcome m with
    | ok v => simp [h, ih, clearMutationFromQueue]
    | error e => simp [h, ih]

theorem drainLoop_records (outcome : MutationRecord → Except JsError Unit)
    (q : List MutationRecord) : ∀ s : QueueState,
    (drainLoop outcome q s).1.records =
      s.records.filter
        (fun r =>
          ((q.filter (okB outcome)).map MutationRecord.id).all
            (fun i => r.id != i)) := by
  induction q with
  | nil =>
    intro s
    simp [drainLoop]
  | cons m rest ih =>
    intro s
    unfold drainLoop
    cases h : outcome m with
    | ok v =>
      have hm : okB outcome m = true := by simp [okB, h]
      simp only [h, ih, clearMutationFromQueue, List.filter_filter,
        List.filter_cons_of_pos hm, List.map_cons, List.all_cons]
      apply List.filter_congr
      intro r hr
      rw [Bool.and_comm]
    | error e =>
      have hm : ¬ okB outcome m = true := by simp [okB, h]
      simp only [h, ih, List.filter_cons_of_neg hm]

end DrainLemmas

theorem processQueue_true_empty (outcome : MutationRecord → Except JsError Unit)
    (s : QueueState) (h : (getMutationQueue s).isEmpty = true) :
    processQueue true outcome s = ⟨s, [], [], [], 1⟩ := by
  unfold processQueue
  simp [h]

theorem processQueue_true_nonempty (outcome : MutationRecord → Except JsError Unit)
    (s : QueueState) (h : ¬ (getMutationQueue s).isEmpty = true) :
    processQueue true outcome s =
      ⟨(drainLoop outcome (getMutationQueue s) s).1,
       (drainLoop outcome (getMutationQueue s) s).2,
       (drainLoop outcome (getMutationQueue s) s).2.map dispatchOf,
       [["notes"], ["tags"]], 1⟩ := by
  unfold processQueue
  simp [h]

theorem processQueue_attempted (outcome : MutationRecord → Except JsError Unit)
    (s : QueueState) :
    (processQueue true outcome s).attempted = getMutationQueue s := by
  by_cases h : (getMutationQueue s).isEmpty
  · rw [processQueue_true_empty outcome s h]
    rw [List.isEmpty_iff] at h
    rw [h]
  · rw [processQueue_true_nonempty outcome s h]
    exact drainLoop_snd outcome (getMutationQueue s) s

theorem processQueue_calls (outcome : MutationRecord → Except JsError Unit)
    (s : QueueState) :
    (processQueue true outcome s).calls = (getMutationQueue s).map dispatchOf := by
  by_cases h : (getMutationQueue s).isEmpty
  · rw [processQueue_true_empty outcome s h]
    rw [List.isEmpty_iff] at h
    rw [h]
    rfl
  · rw [processQueue_true_nonempty outcome s h]
    rw [drainLoop_snd]

theorem processQueue_invalidated (outcome : MutationRecord → Except JsError Unit)
    (s : QueueState) (h : s.records ≠ []) :
    (processQueue true outcome s).invalidated = [["notes"], ["tags"]] := by
  have hq : ¬ (getMutationQueue s).isEmpty = true := by
    rw [List.isEmpty_iff]
    unfold getMutationQueue
    rw [sortByTs_eq_nil_iff]
    exact h
  rw [processQueue_true_nonempty outcome s hq]

theorem processQueue_records_of_WF
    (outcome : MutationRecord → Except JsError Unit) (s : QueueState)
    (h : WFq s) :
    (processQueue true outcome s).state.records =
      s.records.filter (fun r => !okB outcome r) := by
  by_cases hnil : s.records = []
  · have hq : (getMutationQueue s).isEmpty = true := by
      rw [List.isEmpty_iff]
      unfold getMutationQueue
      rw [sortByTs_eq_nil_iff]
      exact hnil
    rw [processQueue_true_empty outcome s hq, hnil]
    rfl
  · have hq : ¬ (getMutationQueue s).isEmpty = true := by
      rw [List.isEmpty_iff]
      unfold getMutationQueue
      rw [sortByTs_eq_nil_iff]
      exact hnil
    rw [processQueue_true_nonempty outcome s hq]
    show (drainLoop outcome (getMutationQueue s) s).1.records = _
    rw [drainLoop_records]
    apply List.filter_congr
    intro r hr
    by_cases hok : okB outcome r = true
    · have hmem : r ∈ getMutationQueue s := mem_sortByTs.mpr hr
      have hin : r.id ∈
          ((getMutationQueue s).filter (okB outcome)).map MutationRecord.id :=
        List.mem_map_of_mem _ (List.mem_filter.mpr ⟨hmem, hok⟩)
      rw [hok]
      simp only [Bool.not_true]
      rw [List.all_eq_false.mpr ⟨r.id, hin, by simp⟩]
    · have hok2 : okB outcome r = false := by
        cases hx : okB outcome r
        · rfl
        · exact absurd hx hok
      rw [hok2]
      simp only [Bool.not_false]
      rw [List.all_eq_true.mpr ?_]
      intro i hi
      rcases List.mem_map.mp hi with ⟨mrec, hm1, hm2⟩
      rcases List.mem_filter.mp hm1 with ⟨hmq, hmok⟩
      have hmrec : mrec ∈ s.records := mem_sortByTs.mp hmq
      by_contra hne
      simp only [bne_iff_ne, ne_eq, Decidable.not_not] at hne
      have heq : r = mrec :=
        id_inj_of_pairwise h.1 r hr mrec hmrec (by rw [hne, hm2])
      rw [heq] at hok2
      rw [hok2] at hmok
      exact Bool.false_ne_true hmok



section CacheLemmas

theorem setQueryData_cons (k : QueryKey) (d : CacheData)
    (e : QueryKey × CacheData) (t : Cache) :
    setQueryData k d (e :: t) =
      (if e.1 == k then (e.1, d) else e) :: setQueryData k d t := rfl

theorem setQueriesData_cons (fk : QueryKey) (f : CacheData → CacheData)
    (e : QueryKey × CacheData) (t : Cache) :
    setQueriesData fk f (e :: t) =
      (if keyMatches fk e.1 then (e.1, f e.2) else e) :: setQueriesData fk f t :=
  rfl

theorem restoreCache_cons (p : QueryKey × CacheData) (prev c : Cache) :
    restoreCache (p :: prev) c = restoreCache prev (setQueryData p.1 p.2 c) :=
  rfl

theorem setQueriesData_keys (fk : QueryKey) (f : CacheData → CacheData)
    (c : Cache) :
    (setQueriesData fk f c).map Prod.fst = c.map Prod.fst := by
  unfold setQueriesData
  rw [List.map_map]
  apply List.map_congr_left
  intro e he
  by_cases h : keyMatches fk e.1
  · simp [h]
  · simp [h]

theorem setQueryData_of_not_mem {k : QueryKey} {d : CacheData} :
    ∀ {c : Cache}, (∀ e ∈ c, e.1 ≠ k) → setQueryData k d c = c := by
  intro c
  induction c with
  | nil => intro h; rfl
  | cons e t ih =>
    intro h
    rw [setQueryData_cons]
    have he : ¬ (e.1 == k) = true := by
      rw [beq_iff_eq]
      exact h e (List.mem_cons_self e t)
    rw [if_neg he, ih (fun x hx => h x (List.mem_cons_of_mem e hx))]

theorem restoreCache_cons_entry (e : QueryKey × CacheData) :
    ∀ (prev : Cache) (X : Cache), (∀ p ∈ prev, p.1 ≠ e.1) →
      restoreCache prev (e :: X) = e :: restoreCache prev X := by
  intro prev
  induction prev with
  | nil => intro X h; rfl
  | cons p ps ih =>
    intro X h
    rw [restoreCache_cons, restoreCache_cons]
    have hp : ¬ (e.1 == p.1) = true := by
      rw [beq_iff_eq]
      intro hh
      exact h p (List.mem_cons_self p ps) hh.symm
    rw [setQueryData_cons, if_neg hp]
    exact ih _ (fun q hq => h q (List.mem_cons_of_mem p hq))

theorem restore_after_setQueries (fk : QueryKey) (f : CacheData → CacheData) :
    ∀ c : Cache, (c.map Prod.fst).Nodup →
      restoreCache (getQueriesData fk c) (setQueriesData fk f c) = c := by
  intro c
  induction c with
  | nil => intro h; rfl
  | cons e t ih =>
    intro h
    rw [List.map_cons, List.nodup_cons] at h
    have keysES : ∀ q ∈ setQueriesData fk f t, q.1 ≠ e.1 := by
      intro q hq heq
      have hq2 : q.1 ∈ (setQueriesData fk f t).map Prod.fst :=
        List.mem_map_of_mem _ hq
      rw [setQueriesData_keys] at hq2
      rw [heq] at hq2
      exact h.1 hq2
    have keysG : ∀ p ∈ getQueriesData fk t, p.1 ≠ e.1 := by
      intro p hp heq
      have hpt : p ∈ t := List.mem_of_mem_filter hp
      have hp2 : p.1 ∈ t.map Prod.fst := List.mem_map_of_mem _ hpt
      rw [heq] at hp2
      exact h.1 hp2
    by_cases hm : keyMatches fk e.1
    · have hg : getQueriesData fk (e :: t) = e :: getQueriesData fk t := by
        unfold getQueriesData
        exact @List.filter_cons_of_pos _ (fun x => keyMatches fk x.1) e t hm
      have hs : setQueriesData fk f (e :: t) =
          (e.1, f e.2) :: setQueriesData fk f t := by
        rw [setQueriesData_cons, if_pos hm]
      rw [hg, hs, restoreCache_cons, setQueryData_cons]
      have hself : (((e.1, f e.2) : QueryKey × CacheData).1 == e.1) = true := by
        rw [beq_iff_eq]
      rw [if_pos hself]
      rw [setQueryData_of_not_mem keysES]
      have he2 : ((((e.1, f e.2) : QueryKey × CacheData).1, e.2)
          : QueryKey × CacheData) = e := rfl
      rw [he2]
      rw [restoreCache_cons_entry e _ _ keysG]
      rw [ih h.2]
    · have hg : getQueriesData fk (e :: t) = getQueriesData fk t := by
        unfold getQueriesData
        exact @List.filter_cons_of_neg _ (fun x => keyMatches fk x.1) e t hm
      have hs : setQueriesData fk f (e :: t) = e :: setQueriesData fk f t := by
        rw [setQueriesData_cons, if_neg hm]
      rw [hg, hs]
      rw [restoreCache_cons_entry e _ _ keysG]
      rw [ih h.2]

end CacheLemmas


section HookLemmas

theorem runUpdateNote_cache_of_error {env : MutEnv} {u : UpdateNoteInput}
    {now : Nat} {qs : QueueState} {c : Cache} {e : JsError}
    (h : (updateNoteMutationFn env u now qs).result = .error e) :
    (runUpdateNote env u now qs c).cache =
      restoreCache (getQueriesData notesKey c)
        (setQueriesData notesKey (optimisticUpdate u) c) := by
  simp only [runUpdateNote]
  rw [h]

theorem runDeleteNote_cache_of_error {env : MutEnv} {i : String}
    {now : Nat} {qs : QueueState} {c : Cache} {e : JsError}
    (h : (deleteNoteMutationFn env i now qs).result = .error e) :
    (runDeleteNote env i now qs c).cache =
      restoreCache (getQueriesData notesKey c)
        (setQueriesData notesKey (optimisticDelete i) c) := by
  simp only [runDeleteNote]
  rw [h]

theorem updateNoteMutationFn_result_of_app_error {env : MutEnv}
    {u : UpdateNoteInput} {now : Nat} {qs : QueueState} {e : JsError}
    (hon : env.onlineAtStart = true) (hdir : env.direct = .error e)
    (happ : isNetworkClass env.onlineAtCatch e = false) :
    (updateNoteMutationFn env u now qs).result = .error e := by
  unfold updateNoteMutationFn
  rw [hon, hdir]
  simp [happ]

theorem deleteNoteMutationFn_result_of_app_error {env : MutEnv}
    {i : String} {now : Nat} {qs : QueueState} {e : JsError}
    (hon : env.onlineAtStart = true) (hdir : env.direct = .error e)
    (happ : isNetworkClass env.onlineAtCatch e = false) :
    (deleteNoteMutationFn env i now qs).result = .error e := by
  unfold deleteNoteMutationFn
  rw [hon, hdir]
  simp [happ]

end HookLemmas

section Claims

/-- Claim C3: during a drain pass every record read from the queue is attempted,
failed records (an application-level rejection such as a 4xx included) stay
in the store, the pass continues past them, and exactly the records whose
dispatch succeeds are removed. -/
theorem drain_pass_retains_failures_continues
    (outcome : MutationRecord → Except JsError Unit) (s : QueueState)
    (h : WFq s) :
    (processQueue true outcome s).attempted = getMutationQueue s ∧
    (processQueue true outcome s).state.records
      = s.records.filter (fun r => !okB outcome r) :=
  ⟨processQueue_attempted outcome s, processQueue_records_of_WF outcome s h⟩

theorem drain_pass_retains_failures_continues_witness :
    (processQueue true failFirst sDemo).attempted = getMutationQueue sDemo ∧
    (processQueue true failFirst sDemo).state.records
      = sDemo.records.filter (fun r => !okB failFirst r) :=
  drain_pass_retains_failures_continues failFirst sDemo (by decide)

/-- Claim C5 (amended): getMutationQueue returns the full multiset of pending
records sorted by the by-timestamp index key, that is ascending timestamp
with ties broken by ascending id; whenever the stored timestamps are
non-decreasing in id order, this coincides with ascending id order. -/
theorem list_ordered_by_timestamp_then_id (s : QueueState) :
    List.Perm (getMutationQueue s) s.records ∧
    (getMutationQueue s).Pairwise tsKeyLe ∧
    (s.records.Pairwise chronoLe →
      ((getMutationQueue s).map MutationRecord.id).Pairwise (· < ·)) := by
  refine ⟨sortByTs_perm s.records, sortByTs_pairwise s.records, ?_⟩
  intro hch
  unfold getMutationQueue
  rw [sortByTs_of_pairwise (hch.imp fun h => chronoLe_tsKeyLe h)]
  exact hch.map _ (fun a b h => h.2)

theorem list_ordered_by_timestamp_then_id_witness :
    List.Perm (getMutationQueue sDemo) sDemo.records ∧
    ((getMutationQueue sDemo).map MutationRecord.id).Pairwise (· < ·) :=
  ⟨(list_ordered_by_timestamp_then_id sDemo).1,
   (list_ordered_by_timestamp_then_id sDemo).2.2 (by decide)⟩

/-- Claim C5: counterexample to the claim as stated. After two enqueue calls
whose Date.now() samples decrease (the ambient clock moved backwards),
getMutationQueue returns the records in the order id 2 then id 1, which is
not ascending id order. -/
theorem list_ordered_not_ascending_id_counterexample :
    (getMutationQueue sClockBack).map MutationRecord.id = [2, 1] ∧
    ¬ ((getMutationQueue sClockBack).map MutationRecord.id).Pairwise (· ≤ ·) := by
  decide

/-- Claim C7: a drain call on an empty queue issues no api calls, attempts no
record and leaves the store exactly as it was, in particular empty. -/
theorem drain_empty_queue_is_noop (online : Bool)
    (outcome : MutationRecord → Except JsError Unit) (s : QueueState)
    (h : s.records = []) :
    (processQueue online outcome s).calls = [] ∧
    (processQueue online outcome s).attempted = [] ∧
    (processQueue online outcome s).state = s ∧
    (processQueue online outcome s).state.records = [] := by
  cases online
  · exact ⟨rfl, rfl, rfl, h⟩
  · have hq : (getMutationQueue s).isEmpty = true := by
      rw [List.isEmpty_iff]
      unfold getMutationQueue
      rw [sortByTs_eq_nil_iff]
      exact h
    rw [processQueue_true_empty outcome s hq]
    exact ⟨rfl, rfl, rfl, h⟩

theorem drain_empty_queue_is_noop_witness :
    (processQueue true allOk emptyQueue).calls = [] ∧
    (processQueue true allOk emptyQueue).attempted = [] ∧
    (processQueue true allOk emptyQueue).state = emptyQueue ∧
    (processQueue true allOk emptyQueue).state.records = [] :=
  drain_empty_queue_is_noop true allOk emptyQueue rfl

/-- Claim C9: an actual drain pass, one that runs with the monitor reporting
reachable over a nonempty queue, always ends by invalidating the notes and
tags query keys, whatever the per-record outcomes were. -/
theorem drain_pass_always_invalidates_notes_and_tags
    (outcome : MutationRecord → Except JsError Unit) (s : QueueState)
    (h : s.records ≠ []) :
    (processQueue true outcome s).invalidated = [["notes"], ["tags"]] :=
  processQueue_invalidated outcome s h

theorem drain_pass_always_invalidates_notes_and_tags_witness :
    (processQueue true failFirst sDemo).invalidated = [["notes"], ["tags"]] :=
  drain_pass_always_invalidates_notes_and_tags failFirst sDemo (by decide)

/-- Claim C10: when navigator.onLine is false at the moment drain is invoked,
processQueue returns at once: the store is never read, no record is
attempted, no api call is issued, nothing is invalidated, and the queue
state is returned unchanged. -/
theorem offline_drain_is_inert (outcome : MutationRecord → Except JsError Unit)
    (s : QueueState) :
    processQueue false outcome s = ⟨s, [], [], [], 0⟩ := rfl

/-- Claim C8 (amended): enqueue stores the record at the end of the log with the
id the key generator hands out, strictly greater than every id currently in
the store, advances the generator, and resolves with undefined rather than
with the stored record. -/
theorem enqueue_appends_next_id_returns_unit
    (m : MutationRequest) (t : Nat) (s : QueueState) (h : WFq s) :
    (addToMutationQueue m t s).1.records
      = s.records ++ [⟨s.nextId, m.type, m.endpoint, m.body, t⟩] ∧
    (∀ r ∈ s.records, r.id < s.nextId) ∧
    (addToMutationQueue m t s).1.nextId = s.nextId + 1 ∧
    (addToMutationQueue m t s).2 = none :=
  ⟨rfl, h.2, rfl, rfl⟩

theorem enqueue_appends_next_id_returns_unit_witness :
    (addToMutationQueue reqPatch 9 emptyQueue).1.records
      = emptyQueue.records
          ++ [⟨emptyQueue.nextId, reqPatch.type, reqPatch.endpoint,
               reqPatch.body, 9⟩] ∧
    (addToMutationQueue reqPatch 9 emptyQueue).1.nextId
      = emptyQueue.nextId + 1 ∧
    (addToMutationQueue reqPatch 9 emptyQueue).2 = none :=
  ⟨(enqueue_appends_next_id_returns_unit reqPatch 9 emptyQueue WFq_empty).1,
   (enqueue_appends_next_id_returns_unit reqPatch 9 emptyQueue WFq_empty).2.2.1,
   (enqueue_appends_next_id_returns_unit reqPatch 9 emptyQueue WFq_empty).2.2.2⟩

/-- Claim C8: counterexample to the claim as stated. addToMutationQueue resolves
with undefined, not with the stored record: the record is in the store but
the call returns none. -/
theorem enqueue_returns_undefined_counterexample :
    (addToMutationQueue reqPost 7 emptyQueue).2 = none ∧
    (addToMutationQueue reqPost 7 emptyQueue).1.records
      = [⟨1, .post, "/notes", none, 7⟩] :=
  ⟨rfl, rfl⟩

/-- Claim C2 (amended): rollback runs exactly when the mutation function rejects,
which for a direct call is an application-level error — one failing the
network-class catch test — and it then restores every cache entry to its
pre-mutation snapshot exactly, for update and for delete alike; a
network-class failure instead resolves into a queued mutation and the
optimistic state stands. -/
theorem rollback_on_app_error_restores_snapshot
    (env : MutEnv) (u : UpdateNoteInput) (i : String) (now : Nat)
    (qs : QueueState) (c : Cache)
    (hnd : (c.map Prod.fst).Nodup)
    (e : JsError) (hdir : env.direct = .error e)
    (happ : isNetworkClass env.onlineAtCatch e = false)
    (hon : env.onlineAtStart = true) :
    (runUpdateNote env u now qs c).cache = c ∧
    (runDeleteNote env i now qs c).cache = c := by
  constructor
  · rw [runUpdateNote_cache_of_error
      (updateNoteMutationFn_result_of_app_error hon hdir happ)]
    exact restore_after_setQueries notesKey _ c hnd
  · rw [runDeleteNote_cache_of_error
      (deleteNoteMutationFn_result_of_app_error hon hdir happ)]
    exact restore_after_setQueries notesKey _ c hnd

theorem rollback_on_app_error_restores_snapshot_witness :
    (runUpdateNote envAppFail updTitleB 5 emptyQueue cacheDemo).cache
      = cacheDemo ∧
    (runDeleteNote envAppFail "n1" 5 emptyQueue cacheDemo).cache
      = cacheDemo :=
  rollback_on_app_error_restores_snapshot envAppFail updTitleB "n1" 5
    emptyQueue cacheDemo (by decide) (.apiError 422 "Validation failed")
    rfl rfl rfl

/-- Claim C2: counterexample to the claim as stated. A direct update call failing
with a recoverable network-class error (a fetch TypeError) resolves into a
queued mutation, onError never runs, and the cache keeps the optimistic
title B instead of returning to the snapshot titling the note A. -/
theorem rollback_on_network_error_counterexample :
    (runUpdateNote envNetFail updTitleB 5 emptyQueue cacheDemo).cache
      = [(["notes", "p1"],
          some [⟨"n1", "B", "alpha", false, false, "default", [], "t0", "t0"⟩]),
         (["tags"], some [])] ∧
    (runUpdateNote envNetFail updTitleB 5 emptyQueue cacheDemo).cache
      ≠ cacheDemo := by
  constructor
  · decide
  · decide

/-- Claim C1 (amended): for every sequence of mutations enqueued into a fresh
store with non-decreasing Date.now() samples, if every replay attempt of
the pass succeeds, then after processQueue returns the queue is empty,
every queued record was attempted and dispatched exactly once, and the
attempts ran in original enqueue order. -/
theorem drain_all_success_exactly_once_in_enqueue_order
    (ms : List (MutationRequest × Nat))
    (outcome : MutationRecord → Except JsError Unit)
    (hts : (ms.map Prod.snd).Pairwise (· ≤ ·))
    (hok : ∀ m, okB outcome m = true) :
    (processQueue true outcome (enqueueAll ms emptyQueue)).state.records
      = [] ∧
    (processQueue true outcome (enqueueAll ms emptyQueue)).attempted
      = (enqueueAll ms emptyQueue).records ∧
    (processQueue true outcome (enqueueAll ms emptyQueue)).calls
      = (enqueueAll ms emptyQueue).records.map dispatchOf ∧
    (enqueueAll ms emptyQueue).records.map reqOf = ms := by
  have hwf : WFq (enqueueAll ms emptyQueue) :=
    WFq_enqueueAll ms emptyQueue WFq_empty
  have hch : (enqueueAll ms emptyQueue).records.Pairwise chronoLe := by
    apply enqueueAll_chrono ms emptyQueue WFq_empty
    · exact List.Pairwise.nil
    · intro r hr
      exact absurd hr (List.not_mem_nil r)
    · exact hts
  have hsorted : getMutationQueue (enqueueAll ms emptyQueue)
      = (enqueueAll ms emptyQueue).records := by
    unfold getMutationQueue
    exact sortByTs_of_pairwise (hch.imp fun h => chronoLe_tsKeyLe h)
  refine ⟨?_, ?_, ?_, ?_⟩
  · rw [processQueue_records_of_WF outcome _ hwf]
    apply List.filter_eq_nil_iff.mpr
    intro r hr
    rw [hok r]
    simp
  · rw [processQueue_attempted, hsorted]
  · rw [processQueue_calls, hsorted]
  · have h := enqueueAll_records_map ms emptyQueue
    rw [h]
    rfl

theorem drain_all_success_exactly_once_in_enqueue_order_witness :
    (processQueue true allOk (enqueueAll msDemo emptyQueue)).state.records
      = [] ∧
    (processQueue true allOk (enqueueAll msDemo emptyQueue)).attempted
      = (enqueueAll msDemo emptyQueue).records ∧
    (processQueue true allOk (enqueueAll msDemo emptyQueue)).calls
      = (enqueueAll msDemo emptyQueue).records.map dispatchOf ∧
    (enqueueAll msDemo emptyQueue).records.map reqOf = msDemo :=
  drain_all_success_exactly_once_in_enqueue_order msDemo allOk (by decide)
    (fun m => rfl)

/-- Claim C1: counterexample to the claim as stated. With the ambient clock
moving backwards between two offline enqueues, a drain pass in which every
replay attempt succeeds still empties the queue, but it dispatches the
records in the order id 2 then id 1, the reverse of the enqueue order. -/
theorem drain_success_order_counterexample :
    sDrainBack.records.map MutationRecord.id = [1, 2] ∧
    (processQueue true allOk sDrainBack).attempted.map MutationRecord.id
      = [2, 1] ∧
    (processQueue true allOk sDrainBack).state.records = [] := by
  decide

theorem createNoteMutationFn_attempted (env : MutEnv) (d : CreateNoteInput)
    (uuid nowIso : String) (now : Nat) (qs : QueueState) :
    (createNoteMutationFn env d uuid nowIso now qs).attempted
      = env.onlineAtStart := by
  obtain ⟨os, oc, dir⟩ := env
  cases os
  · rfl
  · cases dir with
    | ok v => rfl
    | error e =>
      by_cases h : isNetworkClass oc e
      · simp [createNoteMutationFn, h]
      · simp [createNoteMutationFn, h]

theorem updateNoteMutationFn_attempted (env : MutEnv) (u : UpdateNoteInput)
    (now : Nat) (qs : QueueState) :
    (updateNoteMutationFn env u now qs).attempted = env.onlineAtStart := by
  obtain ⟨os, oc, dir⟩ := env
  cases os
  · rfl
  · cases dir with
    | ok v => rfl
    | error e =>
      by_cases h : isNetworkClass oc e
      · simp [updateNoteMutationFn, h]
      · simp [updateNoteMutationFn, h]

theorem deleteNoteMutationFn_attempted (env : MutEnv) (i : String)
    (now : Nat) (qs : QueueState) :
    (deleteNoteMutationFn env i now qs).attempted = env.onlineAtStart := by
  obtain ⟨os, oc, dir⟩ := env
  cases os
  · rfl
  · cases dir with
    | ok v => rfl
    | error e =>
      by_cases h : isNetworkClass oc e
      · simp [deleteNoteMutationFn, h]
      · simp [deleteNoteMutationFn, h]

theorem createNoteMutationFn_queued (env : MutEnv) (d : CreateNoteInput)
    (uuid nowIso : String) (now : Nat) (qs : QueueState) :
    (createNoteMutationFn env d uuid nowIso now qs).queued
      = (!env.onlineAtStart || directFailsNetworkClass env) := by
  obtain ⟨os, oc, dir⟩ := env
  cases os
  · rfl
  · cases dir with
    | ok v => rfl
    | error e =>
      by_cases h : isNetworkClass oc e
      · simp [createNoteMutationFn, directFailsNetworkClass, h]
      · simp [createNoteMutationFn, directFailsNetworkClass, h]

theorem updateNoteMutationFn_queued (env : MutEnv) (u : UpdateNoteInput)
    (now : Nat) (qs : QueueState) :
    (updateNoteMutationFn env u now qs).queued
      = (!env.onlineAtStart || directFailsNetworkClass env) := by
  obtain ⟨os, oc, dir⟩ := env
  cases os
  · rfl
  · cases dir with
    | ok v => rfl
    | error e =>
      by_cases h : isNetworkClass oc e
      · simp [updateNoteMutationFn, directFailsNetworkClass, h]
      · simp [updateNoteMutationFn, directFailsNetworkClass, h]

theorem deleteNoteMutationFn_queued (env : MutEnv) (i : String)
    (now : Nat) (qs : QueueState) :
    (deleteNoteMutationFn env i now qs).queued
      = (!env.onlineAtStart || directFailsNetworkClass env) := by
  obtain ⟨os, oc, dir⟩ := env
  cases os
  · rfl
  · cases dir with
    | ok v => rfl
    | error e =>
      by_cases h : isNetworkClass oc e
      · simp [deleteNoteMutationFn, directFailsNetworkClass, h]
      · simp [deleteNoteMutationFn, directFailsNetworkClass, h]

theorem createNoteMutationFn_app_error {env : MutEnv} (d : CreateNoteInput)
    (uuid nowIso : String) (now : Nat) (qs : QueueState) {st : Nat}
    {msg : String} (hon : env.onlineAtStart = true)
    (hoc : env.onlineAtCatch = true)
    (hdir : env.direct = .error (.apiError st msg)) :
    (createNoteMutationFn env d uuid nowIso now qs).result
      = .error (.apiError st msg) ∧
    (createNoteMutationFn env d uuid nowIso now qs).queue = qs := by
  unfold createNoteMutationFn
  rw [hon, hdir]
  simp [isNetworkClass, hoc]

theorem updateNoteMutationFn_app_error {env : MutEnv} (u : UpdateNoteInput)
    (now : Nat) (qs : QueueState) {st : Nat} {msg : String}
    (hon : env.onlineAtStart = true) (hoc : env.onlineAtCatch = true)
    (hdir : env.direct = .error (.apiError st msg)) :
    (updateNoteMutationFn env u now qs).result = .error (.apiError st msg) ∧
    (updateNoteMutationFn env u now qs).queue = qs := by
  unfold updateNoteMutationFn
  rw [hon, hdir]
  simp [isNetworkClass, hoc]

theorem deleteNoteMutationFn_app_error {env : MutEnv} (i : String)
    (now : Nat) (qs : QueueState) {st : Nat} {msg : String}
    (hon : env.onlineAtStart = true) (hoc : env.onlineAtCatch = true)
    (hdir : env.direct = .error (.apiError st msg)) :
    (deleteNoteMutationFn env i now qs).result = .error (.apiError st msg) ∧
    (deleteNoteMutationFn env i now qs).queue = qs := by
  unfold deleteNoteMutationFn
  rw [hon, hdir]
  simp [isNetworkClass, hoc]

/-- Claim C4 (amended): every write action attempts the direct call exactly when
the monitor reports reachable at the start; a mutation is enqueued exactly
when the monitor reported unreachable at the start or the direct call
failed and passed the network-class catch test, the test being satisfied
also when the monitor reads unreachable inside the catch block; and an
application-level error is re-thrown with the queue untouched provided the
monitor still reports reachable when the failure is handled. -/
theorem write_actions_attempt_and_queue_policy
    (env : MutEnv) (d : CreateNoteInput) (u : UpdateNoteInput) (i : String)
    (uuid nowIso : String) (now : Nat) (qs : QueueState) :
    ((createNoteMutationFn env d uuid nowIso now qs).attempted
        = env.onlineAtStart ∧
     (updateNoteMutationFn env u now qs).attempted = env.onlineAtStart ∧
     (deleteNoteMutationFn env i now qs).attempted = env.onlineAtStart) ∧
    ((createNoteMutationFn env d uuid nowIso now qs).queued
        = (!env.onlineAtStart || directFailsNetworkClass env) ∧
     (updateNoteMutationFn env u now qs).queued
        = (!env.onlineAtStart || directFailsNetworkClass env) ∧
     (deleteNoteMutationFn env i now qs).queued
        = (!env.onlineAtStart || directFailsNetworkClass env)) ∧
    (∀ st : Nat, ∀ msg : String, env.onlineAtStart = true →
      env.onlineAtCatch = true → env.direct = .error (.apiError st msg) →
      (createNoteMutationFn env d uuid nowIso now qs).result
          = .error (.apiError st msg) ∧
      (createNoteMutationFn env d uuid nowIso now qs).queue = qs ∧
      (updateNoteMutationFn env u now qs).result
          = .error (.apiError st msg) ∧
      (updateNoteMutationFn env u now qs).queue = qs ∧
      (deleteNoteMutationFn env i now qs).result
          = .error (.apiError st msg) ∧
      (deleteNoteMutationFn env i now qs).queue = qs) := by
  refine ⟨⟨createNoteMutationFn_attempted env d uuid nowIso now qs,
      updateNoteMutationFn_attempted env u now qs,
      deleteNoteMutationFn_attempted env i now qs⟩,
    ⟨createNoteMutationFn_queued env d uuid nowIso now qs,
      updateNoteMutationFn_queued env u now qs,
      deleteNoteMutationFn_queued env i now qs⟩, ?_⟩
  intro st msg hon hoc hdir
  exact ⟨(createNoteMutationFn_app_error d uuid nowIso now qs hon hoc hdir).1,
    (createNoteMutationFn_app_error d uuid nowIso now qs hon hoc hdir).2,
    (updateNoteMutationFn_app_error u now qs hon hoc hdir).1,
    (updateNoteMutationFn_app_error u now qs hon hoc hdir).2,
    (deleteNoteMutationFn_app_error i now qs hon hoc hdir).1,
    (deleteNoteMutationFn_app_error i now qs hon hoc hdir).2⟩

theorem write_actions_attempt_and_queue_policy_witness :
    (createNoteMutationFn envApp404 dGroceries "u1" "iso1" 7 emptyQueue).attempted
      = true ∧
    (createNoteMutationFn envApp404 dGroceries "u1" "iso1" 7 emptyQueue).queued
      = false ∧
    (createNoteMutationFn envApp404 dGroceries "u1" "iso1" 7 emptyQueue).result
      = .error (.apiError 404 "Not found") ∧
    (updateNoteMutationFn envApp404 updTitleB 7 emptyQueue).queue
      = emptyQueue ∧
    (deleteNoteMutationFn envApp404 "n1" 7 emptyQueue).result
      = .error (.apiError 404 "Not found") :=
  ⟨(write_actions_attempt_and_queue_policy envApp404 dGroceries updTitleB
      "n1" "u1" "iso1" 7 emptyQueue).1.1,
   (write_actions_attempt_and_queue_policy envApp404 dGroceries updTitleB
      "n1" "u1" "iso1" 7 emptyQueue).2.1.1,
   ((write_actions_attempt_and_queue_policy envApp404 dGroceries updTitleB
      "n1" "u1" "iso1" 7 emptyQueue).2.2 404 "Not found" rfl rfl rfl).1,
   ((write_actions_attempt_and_queue_policy envApp404 dGroceries updTitleB
      "n1" "u1" "iso1" 7 emptyQueue).2.2 404 "Not found" rfl rfl rfl).2.2.2.1,
   ((write_actions_attempt_and_queue_policy envApp404 dGroceries updTitleB
      "n1" "u1" "iso1" 7 emptyQueue).2.2 404 "Not found" rfl rfl rfl).2.2.2.2.1⟩

/-- Claim C4: counterexample to the claim as stated. A direct create call
rejected by the application with a 400 is nevertheless enqueued and the
mutation resolves with a placeholder instead of re-throwing, because
navigator.onLine reads false inside the catch block. -/
theorem app_error_enqueued_when_offline_at_catch_counterexample :
    (createNoteMutationFn envAppFailOffline dGroceries "u1" "iso1" 7
        emptyQueue).queued = true ∧
    (createNoteMutationFn envAppFailOffline dGroceries "u1" "iso1" 7
        emptyQueue).result
      = .ok (.offlinePlaceholder (createPlaceholder dGroceries "u1" "iso1")) ∧
    (createNoteMutationFn envAppFailOffline dGroceries "u1" "iso1" 7
        emptyQueue).queue.records.map MutationRecord.id = [1] :=
  ⟨rfl, rfl, rfl⟩

/-- The offline branch of the useCreateNote mutation function: one POST
/notes record carrying the caller input is appended to the queue and the
call resolves with the synthesized placeholder. -/
theorem createNoteMutationFn_offline
    (env : MutEnv) (d : CreateNoteInput) (uuid nowIso : String) (now : Nat)
    (qs : QueueState) (hoff : env.onlineAtStart = false) :
    (createNoteMutationFn env d uuid nowIso now qs).queue.records
      = qs.records ++ [⟨qs.nextId, .post, "/notes", some (.create d), now⟩] ∧
    (createNoteMutationFn env d uuid nowIso now qs).queued = true ∧
    (createNoteMutationFn env d uuid nowIso now qs).attempted = false ∧
    (createNoteMutationFn env d uuid nowIso now qs).result
      = .ok (.offlinePlaceholder
          ⟨uuid, d.title, d.content, d.is_pinned.getD false, false,
           "default", [], nowIso, nowIso⟩) := by
  unfold createNoteMutationFn
  rw [hoff]
  simp [addToMutationQueue, createPlaceholder]

/-- Claim C6 (amended): a note created while the monitor reports
unreachable appends exactly one POST /notes record carrying the caller
input to the queue, and the mutation resolves with a placeholder built
from the client-generated id, the current timestamps, the caller-supplied
title, content and pinned flag, an empty tag set, and the color forced to
the default; the placeholder is only the mutation resolved value — no
handler writes it into the notes query cache, which is left unchanged, the
hook merely invalidating the notes and tags keys on success. -/
theorem offline_create_queue_placeholder_cache_policy
    (env : MutEnv) (d : CreateNoteInput) (uuid nowIso : String) (now : Nat)
    (qs : QueueState) (c : Cache) (hoff : env.onlineAtStart = false) :
    (runCreateNote env d uuid nowIso now qs c).queue.records
      = qs.records ++ [⟨qs.nextId, .post, "/notes", some (.create d), now⟩] ∧
    (runCreateNote env d uuid nowIso now qs c).result
      = .ok (.offlinePlaceholder
          ⟨uuid, d.title, d.content, d.is_pinned.getD false, false,
           "default", [], nowIso, nowIso⟩) ∧
    (runCreateNote env d uuid nowIso now qs c).cache = c ∧
    (runCreateNote env d uuid nowIso now qs c).invalidated
      = [notesKey, tagsKey] := by
  have h := createNoteMutationFn_offline env d uuid nowIso now qs hoff
  refine ⟨h.1, h.2.2.2, rfl, ?_⟩
  simp only [runCreateNote, h.2.2.2]

theorem offline_create_queue_placeholder_cache_policy_witness :
    (runCreateNote envOffline dGroceries "u1" "iso1" 7 emptyQueue
        cacheDemo).queue.records
      = emptyQueue.records
          ++ [⟨emptyQueue.nextId, .post, "/notes", some (.create dGroceries),
               7⟩] ∧
    (runCreateNote envOffline dGroceries "u1" "iso1" 7 emptyQueue
        cacheDemo).result
      = .ok (.offlinePlaceholder
          ⟨"u1", dGroceries.title, dGroceries.content,
           dGroceries.is_pinned.getD false, false, "default", [],
           "iso1", "iso1"⟩) ∧
    (runCreateNote envOffline dGroceries "u1" "iso1" 7 emptyQueue
        cacheDemo).cache = cacheDemo ∧
    (runCreateNote envOffline dGroceries "u1" "iso1" 7 emptyQueue
        cacheDemo).invalidated = [notesKey, tagsKey] :=
  offline_create_queue_placeholder_cache_policy envOffline dGroceries
    "u1" "iso1" 7 emptyQueue cacheDemo rfl

/-- Claim C6: counterexample to the claim as stated, on two clauses. A
caller-supplied color RED is not kept on the synthesized placeholder, the
object literal overwriting the spread input with the default color; and
the cache does not show the placeholder: after the offline create run the
notes query cache is exactly what it was, and no entry of it holds a note
with the placeholder id or the Groceries title. -/
theorem offline_create_color_and_cache_counterexample :
    dColored.color = some "RED" ∧
    (runCreateNote envOffline dColored "u1" "iso1" 7 emptyQueue
        cacheDemo).result
      = .ok (.offlinePlaceholder (createPlaceholder dColored "u1" "iso1")) ∧
    (createPlaceholder dColored "u1" "iso1").color = "default" ∧
    (runCreateNote envOffline dColored "u1" "iso1" 7 emptyQueue
        cacheDemo).cache = cacheDemo ∧
    cacheDemo.all
      (fun e => (e.2.getD []).all
        (fun n => n.id != "u1" && n.title != "Groceries")) = true := by
  refine ⟨rfl, rfl, rfl, rfl, ?_⟩
  decide

end Claims

end KNotes



